import Mathlib

/-
Verification of the Assembla repository-metadata fetcher
(src/assembla_repositories.py) against its natural-language specification.

The Python program is shallowly embedded below.  HTTP calls are modelled by
an explicit response type (`Resp`): a response either carries an HTTP status
code and a parsed JSON body, or is a transport exception.  JSON objects with
optional string fields become Lean structures with `Option String` fields,
with `none` standing for an absent key (Python `dict.get` chains become
`Option.getD` chains; an absent key and a `None` value behave identically at
every use site in the program, so they are conflated).  Python truthiness of
a possibly-missing string (`not d.get(k)`) is `o.getD "" == ""`.
Console output relevant to error reporting is modelled by `List String`
message functions that mirror the `print` calls of each sub-fetch; the
dynamic parts of messages (URLs, loop indices, statuses) are abbreviated
since only the presence of a message matters to the claims.
Counts are embedded as `Int` (Python ints produced by `len`, `max` and
literals); `size_mb` is embedded as `ℚ` with Python's 2-decimal half-even
`round` made exact (byte counts below 2^53 make `size/2^20` exact in
binary floating point, so the rational model agrees with the float one).
-/

namespace Assembla

/-- An HTTP interaction as seen by the program: either a response with a
status code and an already-parsed JSON body, or a raised transport/parse
exception with its message. -/
inductive Resp (α : Type) where
  | ok (status : Nat) (body : α)
  | exn (msg : String)
deriving DecidableEq

/-- The body of a response when and only when its status is 200
(the only status on which the program consumes a body). -/
def respBody200 {α : Type} : Resp α → Option α
  | .ok s body => if s = 200 then some body else none
  | .exn _ => none

/-- A branch object from the branches endpoints (only `name`/`id` are read,
for the query parameter; they do not influence the embedded statistics). -/
structure Branch where
  name : Option String
  id : Option String
deriving DecidableEq

/-- The `author` value of a commit payload: a JSON object (dict) with
optional `name`/`login`, or a non-dict value rendered via `str`. -/
inductive AuthorVal where
  | dict (name : Option String) (login : Option String)
  | str (s : String)
deriving DecidableEq

/-- A commit payload as read by `get_git_repo_statistics`. -/
structure Commit where
  id : Option String
  sha : Option String
  revision : Option String
  message : Option String
  authored_at : Option String
  committed_at : Option String
  date : Option String
  author : Option AuthorVal
deriving DecidableEq

/-- A repository detail record from `/spaces/{space}/repos.json`
(`repos_lookup` values).  `id` is the join key (accessed unconditionally by
the dict comprehension, hence not optional). -/
structure RepoData where
  id : String
  size : Option Nat
  last_commit_at : Option String
  default_branch : Option String
  https_clone_url : Option String
  ssh_clone_url : Option String
  branches_url : Option String
  commits_url : Option String
deriving DecidableEq

/-- A tool entry from `/spaces/{space}/space_tools.json`. -/
structure Tool where
  id : Option String
  type : Option String
  name : Option String
  menu_name : Option String
  created_at : Option String
  updated_at : Option String
deriving DecidableEq

/-- The `stats` dictionary built by `get_git_repo_statistics`
(lines 215-223): exactly seven keys, initialised to 0 / empty string. -/
structure Stats where
  commits_count : Int
  branches_count : Int
  tags_count : Int
  merge_requests_count : Int
  last_commit_author : String
  last_commit_message : String
  last_commit_at : String
deriving DecidableEq

/-- The merged `repo_info` dictionary built per tool in
`fetch_assembla_repositories_for_space`.  Fields that are only present on
some paths (detail merge, stats merge) are `Option`-valued; `Option.getD`
at use sites mirrors `repo_info.get(key, default)`. -/
structure RepoInfo where
  id : Option String
  name : Option String
  menu_name : Option String
  type : String
  created_at : Option String
  updated_at : Option String
  space_id : String
  space_name : String
  size : Option Nat
  size_mb : Option ℚ
  last_commit_at : Option String
  default_branch : Option String
  clone_url_https : Option String
  clone_url_ssh : Option String
  is_likely_imported : Option Bool
  has_commits_indicator : Option Bool
  commits_count : Option Int
  branches_count : Option Int
  tags_count : Option Int
  merge_requests_count : Option Int
  last_commit_author : Option String
  last_commit_message : Option String
deriving DecidableEq

/-- Python `round` (banker's rounding, ties to even) on an exact rational. -/
def pyRound (q : ℚ) : ℤ :=
  let f : ℤ := ⌊q⌋
  let frac : ℚ := q - (f : ℚ)
  if frac < 1 / 2 then f
  else if 1 / 2 < frac then f + 1
  else if f % 2 = 0 then f else f + 1

/-- Python `round(q, 2)`: round to 2 decimal places, ties to even. -/
def roundTo2 (q : ℚ) : ℚ := ((pyRound (q * 100) : ℚ)) / 100

/-- Line 156-160: the empty-repository predicate computed in the reporter
loop of `fetch_assembla_repositories_for_space`. -/
def is_empty_report (repo : RepoInfo) : Bool :=
  (repo.commits_count.getD 0 == 0) &&
  (repo.branches_count.getD 0 == 0) &&
  (repo.size.getD 0 == 0) &&
  (repo.last_commit_at.getD "" == "") &&
  !(repo.has_commits_indicator.getD false)

/-- Line 462-466: the empty-repository predicate computed again, verbatim,
in `save_repositories_to_csv`. -/
def is_empty_export (repo : RepoInfo) : Bool :=
  (repo.commits_count.getD 0 == 0) &&
  (repo.branches_count.getD 0 == 0) &&
  (repo.size.getD 0 == 0) &&
  (repo.last_commit_at.getD "" == "") &&
  !(repo.has_commits_indicator.getD false)

/-- Line 486: the `Is_Empty` CSV column value,
`'True' if is_empty else ('Imported' if is_imported else 'False')`. -/
def isEmptyCell (repo : RepoInfo) : String :=
  if is_empty_export repo then "True"
  else if repo.is_likely_imported.getD false then "Imported"
  else "False"

/-- Lines 253-263 / 372-383: the fallback chain over alternative endpoint
URLs.  Alternates are requested in list order; a 200 response ends the
iteration (`break`) with its body; any other status or a caught exception
moves on to the next alternate.  The second component counts how many
alternates were actually requested. -/
def tryAlts {α : Type} : List (Resp (List α)) → Option (List α) × Nat
  | [] => (none, 0)
  | r :: rest =>
    match respBody200 r with
    | some body => (some body, 1)
    | none =>
      let p := tryAlts rest
      (p.1, p.2 + 1)

/-- The console lines printed by one pass of the alternative-endpoint loop
(each iteration prints a "Trying alternative endpoint" line before the
request, then an outcome line). -/
def tryAltsMsgs {α : Type} : List (Resp (List α)) → List String
  | [] => []
  | r :: rest =>
    match r with
    | .ok s _ =>
      if s = 200 then
        ["    Trying alternative endpoint", "    SUCCESS using alternative endpoint"]
      else if s = 204 then
        ["    Trying alternative endpoint",
         "    Alternative endpoint returned 204 (No Content)"] ++ tryAltsMsgs rest
      else
        ["    Trying alternative endpoint",
         "    Alternative endpoint failed with status"] ++ tryAltsMsgs rest
    | .exn e =>
      ["    Trying alternative endpoint",
       "    Alternative endpoint exception: " ++ e] ++ tryAltsMsgs rest

/-- Lines 227-275: the branches sub-fetch.  200 yields the branch list;
204 triggers the three-alternate fallback chain; any other status or an
exception leaves the branch list empty.  `branches_count` is always the
length of the returned list. -/
def fetchBranchesVal (primary : Resp (List Branch))
    (alts : List (Resp (List Branch))) : List Branch :=
  match primary with
  | .ok s body =>
    if s = 200 then body
    else if s = 204 then ((tryAlts alts).1).getD []
    else []
  | .exn _ => []

/-- The console lines printed by the branches sub-fetch, per path. -/
def fetchBranchesMsgs (primary : Resp (List Branch))
    (alts : List (Resp (List Branch))) : List String :=
  match primary with
  | .ok s _ =>
    if s = 200 then ["    Found branches"]
    else if s = 204 then
      "    No branches found (204), trying alternative approaches..." ::
        tryAltsMsgs alts
    else ["    Could not fetch branches, status", "    Response"]
  | .exn e => ["    Could not fetch branches: " ++ e]

/-- Lines 277-287: the tags sub-fetch.  200 yields the list length, 204
yields 0; any other status leaves the initial 0 in place.  (Tag bodies are
only measured, never inspected, so their element type is `Unit`.) -/
def fetchTagsVal (r : Resp (List Unit)) : Int :=
  match r with
  | .ok s body => if s = 200 then (body.length : Int) else 0
  | .exn _ => 0

/-- The console lines printed by the tags sub-fetch: only the exception
handler prints; an unexpected status prints nothing. -/
def fetchTagsMsgs (r : Resp (List Unit)) : List String :=
  match r with
  | .ok _ _ => []
  | .exn e => ["    Could not fetch tags: " ++ e]

/-- Lines 426-434: the merge-requests sub-fetch.  Only a 200 response sets
the count; any other status leaves 0 in place. -/
def fetchMRVal (r : Resp (List Unit)) : Int :=
  match r with
  | .ok s body => if s = 200 then (body.length : Int) else 0
  | .exn _ => 0

/-- The console lines printed by the merge-requests sub-fetch: only the
exception handler prints. -/
def fetchMRMsgs (r : Resp (List Unit)) : List String :=
  match r with
  | .ok _ _ => []
  | .exn e => ["    Could not fetch merge requests: " ++ e]

/-- Python string slicing `s[:n]` (by characters).  (`String.take` computes
the same string; this character-list form is used because it reduces in
the kernel.) -/
def strTake (s : String) (n : Nat) : String := ⟨s.data.take n⟩

/-- Line 315-318: the de-duplication key of a commit payload as the code
computes it: `commit.get('id', commit.get('sha', commit.get('revision',
'')))` — the value of the first present field — and, when that value is
falsy (all absent, or the first present one empty), the composite
`f"{message[:50]}_{authored_at or committed_at}"`. -/
def commitKey (c : Commit) : String :=
  let cid := c.id.getD (c.sha.getD (c.revision.getD ""))
  if cid = "" then
    strTake (c.message.getD "") 50 ++ "_" ++
      c.authored_at.getD (c.committed_at.getD "")
  else cid

/-- The de-duplication key as the specification words it: "the first
present field among id, sha (revision-hash), and revision, or, when none
is present, the composite of the first 50 characters of the message plus
the best-available timestamp field".  Kept separate from `commitKey` to
compare the spec's description with the code. -/
def specCommitKey (c : Commit) : String :=
  match c.id with
  | some v => v
  | none =>
    match c.sha with
    | some v => v
    | none =>
      match c.revision with
      | some v => v
      | none =>
        strTake (c.message.getD "") 50 ++ "_" ++
          c.authored_at.getD (c.committed_at.getD (c.date.getD ""))

/-- Line 335: the timestamp used for latest-commit tracking:
`commit.get('authored_at', commit.get('committed_at', commit.get('date', '')))`. -/
def commitDate (c : Commit) : String :=
  c.authored_at.getD (c.committed_at.getD (c.date.getD ""))

/-- Lexicographic order on character lists by code point. -/
def charListLt : List Char → List Char → Bool
  | [], [] => false
  | [], _ :: _ => true
  | _ :: _, [] => false
  | a :: as, b :: bs =>
    if a.toNat < b.toNat then true
    else if b.toNat < a.toNat then false
    else charListLt as bs

/-- Python's `<` on strings: lexicographic comparison by Unicode code
point (the comparison behind `commit_date > latest_commit_date`). -/
def strLt (s t : String) : Bool := charListLt s.data t.data

/-- The accumulation state of the per-branch commit loop: the
de-duplicated `all_commits` list plus the `latest_commit` /
`latest_commit_date` trackers. -/
structure AggState where
  all : List Commit
  latest : Option Commit
  latestDate : String
deriving DecidableEq

/-- Lines 314-338: process one commit payload: skip it when a commit with
the same key is already accumulated, otherwise append it and update the
latest-commit tracker when it carries a truthy timestamp that compares
(lexicographically) above the current one. -/
def addCommit (st : AggState) (c : Commit) : AggState :=
  if st.all.any (fun e => commitKey e == commitKey c) then st
  else if (commitDate c != "") && ((st.latestDate == "") || strLt st.latestDate (commitDate c)) then
    { all := st.all ++ [c], latest := some c, latestDate := commitDate c }
  else { st with all := st.all ++ [c] }

/-- Lines 309-344: fold the commits of one branch response into the
accumulator; a non-200 status or an exception contributes nothing. -/
def processBranchResp (st : AggState) (r : Resp (List Commit)) : AggState :=
  match respBody200 r with
  | some body => body.foldl addCommit st
  | none => st

/-- The console lines printed while fetching one branch's commits
(the "Fetching commits from branch" line precedes the request). -/
def branchCommitMsgs (r : Resp (List Commit)) : List String :=
  match r with
  | .ok s _ =>
    if s = 200 then
      ["    Fetching commits from branch", "    Found commits in branch"]
    else
      ["    Fetching commits from branch",
       "    Could not fetch commits for branch, status"]
  | .exn e =>
    ["    Fetching commits from branch",
     "    Could not fetch commits for branch: " ++ e]

/-- The empty accumulator (`all_commits = []`, `latest_commit = None`,
`latest_commit_date = None`). -/
def initAgg : AggState := { all := [], latest := none, latestDate := "" }

/-- The whole per-branch aggregation: fold every branch's commit response
into the shared accumulator, in branch order. -/
def aggregateAll (resps : List (Resp (List Commit))) : AggState :=
  resps.foldl processBranchResp initAgg

/-- Lines 346-398: the branchless fallback commits fetch.  200 takes the
body as `all_commits` with its head as the assumed latest; 422 runs the
three-alternate chain (200 there likewise); 204, other statuses and
exceptions leave no commits. -/
def commitsFallbackVal (r : Resp (List Commit))
    (alts : List (Resp (List Commit))) : List Commit × Option Commit :=
  match r with
  | .ok s body =>
    if s = 200 then (body, body.head?)
    else if s = 422 then
      match (tryAlts alts).1 with
      | some b => (b, b.head?)
      | none => ([], none)
    else ([], none)
  | .exn _ => ([], none)

/-- The console lines printed by the branchless fallback commits fetch. -/
def commitsFallbackMsgs (r : Resp (List Commit))
    (alts : List (Resp (List Commit))) : List String :=
  match r with
  | .ok s _ =>
    if s = 200 then ["    Found commits total"]
    else if s = 422 then
      "    No commits found (422), trying alternative approaches for imported repo..." ::
        tryAltsMsgs alts
    else if s = 204 then ["    Repository has no commits (204 No Content)"]
    else ["    Could not fetch commits, status", "    Response"]
  | .exn e => ["    Could not fetch commits: " ++ e]

/-- All HTTP interactions one call of `get_git_repo_statistics` can make:
the primary branches response, the three branch alternates, the tags
response, the commits response for the i-th discovered branch, the
branchless fallback commits response with its three alternates, and the
merge-requests response. -/
structure NetInputs where
  branchesResp : Resp (List Branch)
  branchesAltResps : List (Resp (List Branch))
  tagsResp : Resp (List Unit)
  commitsFor : Nat → Resp (List Commit)
  commitsFallbackResp : Resp (List Commit)
  commitsAltResps : List (Resp (List Commit))
  mrResp : Resp (List Unit)

/-- Lines 289-398: collect `all_commits` and `latest_commit`: per-branch
fetches when any branches were discovered, otherwise the fallback fetch. -/
def commitsStageVal (inp : NetInputs) (branches : List Branch) :
    List Commit × Option Commit :=
  if branches.isEmpty then
    commitsFallbackVal inp.commitsFallbackResp inp.commitsAltResps
  else
    let st := aggregateAll ((List.range branches.length).map inp.commitsFor)
    (st.all, st.latest)

/-- The console lines of the commits stage. -/
def commitsStageMsgs (inp : NetInputs) (branches : List Branch) : List String :=
  if branches.isEmpty then
    commitsFallbackMsgs inp.commitsFallbackResp inp.commitsAltResps
  else
    ((List.range branches.length).map inp.commitsFor).foldl
      (fun acc r => acc ++ branchCommitMsgs r) []

/-- Line 405-409: `last_commit_author` from the latest commit's `author`
value: a dict yields `get('name', get('login', ''))` (an absent author is
the empty dict), a non-dict value is rendered with `str`. -/
def authorName : Option AuthorVal → String
  | some (.dict n l) => n.getD (l.getD "")
  | some (.str s) => s
  | none => ""

/-- Lines 400-424: assemble the final `stats` dictionary: the commit count
is `len(all_commits)`; a latest commit supplies the author, the
newline-stripped message, and `authored_at`/`committed_at`; otherwise,
when the detail record carries a truthy `last_commit_at` and the count is
zero, synthesize `max(1, branches_count)` (or 1 without branches) and
carry that timestamp forward. -/
def assembleStats (branchesCount : Nat) (tagsCount mrCount : Int)
    (all : List Commit) (latest : Option Commit)
    (repo_data : Option RepoData) : Stats :=
  match latest with
  | some lc =>
    { commits_count := (all.length : Int),
      branches_count := (branchesCount : Int),
      tags_count := tagsCount,
      merge_requests_count := mrCount,
      last_commit_author := authorName lc.author,
      last_commit_message := ((lc.message.getD "").replace "\n" " ").replace "\r" " ",
      last_commit_at := lc.authored_at.getD (lc.committed_at.getD "") }
  | none =>
    match repo_data with
    | some rd =>
      if rd.last_commit_at.getD "" ≠ "" ∧ all.length = 0 then
        { commits_count := if 0 < branchesCount then max 1 (branchesCount : Int) else 1,
          branches_count := (branchesCount : Int),
          tags_count := tagsCount,
          merge_requests_count := mrCount,
          last_commit_author := "",
          last_commit_message := "",
          last_commit_at := rd.last_commit_at.getD "" }
      else
        { commits_count := (all.length : Int),
          branches_count := (branchesCount : Int),
          tags_count := tagsCount,
          merge_requests_count := mrCount,
          last_commit_author := "",
          last_commit_message := "",
          last_commit_at := "" }
    | none =>
      { commits_count := (all.length : Int),
        branches_count := (branchesCount : Int),
        tags_count := tagsCount,
        merge_requests_count := mrCount,
        last_commit_author := "",
        last_commit_message := "",
        last_commit_at := "" }

/-- Lines 210-437: `get_git_repo_statistics` over a fixed set of HTTP
interactions.  Every exception of the original is caught inside the
function (the embedding is total), so it always returns a complete
seven-field record. -/
def getGitRepoStatistics (inp : NetInputs) (repo_data : Option RepoData) : Stats :=
  let branches := fetchBranchesVal inp.branchesResp inp.branchesAltResps
  let tags := fetchTagsVal inp.tagsResp
  let ag := commitsStageVal inp branches
  let mr := fetchMRVal inp.mrResp
  assembleStats branches.length tags mr ag.1 ag.2 repo_data

/-- The console lines of one `get_git_repo_statistics` call (the
narration-only lines — URL echoes, the final stats summary and the
synthesis notes — are omitted; only the per-sub-fetch reporting modelled
above is kept). -/
def getGitRepoStatisticsMsgs (inp : NetInputs) : List String :=
  let branches := fetchBranchesVal inp.branchesResp inp.branchesAltResps
  fetchBranchesMsgs inp.branchesResp inp.branchesAltResps
    ++ fetchTagsMsgs inp.tagsResp
    ++ commitsStageMsgs inp branches
    ++ fetchMRMsgs inp.mrResp

/-- The three recognized repository-tool kinds (line 90). -/
def repo_types : List String := ["GitTool", "SubversionTool", "PerforceDepotTool"]

/-- Line 138: `repos_lookup.get(tool_id)` — the detail record joined to a
tool by id (`None` when the tool has no id or no detail matches). -/
def findDetail (reposData : List RepoData) (tool : Tool) : Option RepoData :=
  tool.id.bind (fun tid => reposData.find? (fun d => d.id == tid))

/-- Lines 404-412 applied at line 140: `repo_info.update(repo_stats)` —
the seven stats keys overwrite any values the merged record held. -/
def applyStats (repo : RepoInfo) (stats : Stats) : RepoInfo :=
  { repo with
    commits_count := some stats.commits_count,
    branches_count := some stats.branches_count,
    tags_count := some stats.tags_count,
    merge_requests_count := some stats.merge_requests_count,
    last_commit_author := some stats.last_commit_author,
    last_commit_message := some stats.last_commit_message,
    last_commit_at := some stats.last_commit_at }

/-- Lines 95-144: build one `repo_info` record for a recognized tool:
base fields from the tool entry, detail fields (with size-MB rounding and
the imported/commits-indicator flags) when a detail record matches, and —
for `GitTool` only — the enricher's stats merged in last. -/
def buildRepoInfo (space : String) (reposData : List RepoData)
    (net : NetInputs) (tool : Tool) (ty : String) : RepoInfo :=
  let base : RepoInfo :=
    { id := tool.id, name := tool.name, menu_name := tool.menu_name,
      type := ty, created_at := tool.created_at, updated_at := tool.updated_at,
      space_id := space, space_name := space,
      size := none, size_mb := none, last_commit_at := none,
      default_branch := none, clone_url_https := none, clone_url_ssh := none,
      is_likely_imported := none, has_commits_indicator := none,
      commits_count := none, branches_count := none, tags_count := none,
      merge_requests_count := none, last_commit_author := none,
      last_commit_message := none }
  let withDetail : RepoInfo :=
    match findDetail reposData tool with
    | some rd =>
      { base with
        size := some (rd.size.getD 0),
        size_mb := some (if rd.size.getD 0 > 0 then
          roundTo2 ((rd.size.getD 0 : ℚ) / (1024 * 1024)) else 0),
        last_commit_at := rd.last_commit_at,
        default_branch := rd.default_branch,
        clone_url_https := rd.https_clone_url,
        clone_url_ssh := rd.ssh_clone_url,
        is_likely_imported := some (rd.last_commit_at.getD "" != ""),
        has_commits_indicator := some (rd.last_commit_at.getD "" != "") }
    | none => base
  if ty == "GitTool" then
    applyStats withDetail (getGitRepoStatistics net (findDetail reposData tool))
  else withDetail

/-- Lines 92-144: match one tool entry against the recognized kinds;
unrecognized (or typeless) entries are dropped. -/
def processTool (space : String) (reposData : List RepoData)
    (net : NetInputs) (tool : Tool) : Option RepoInfo :=
  match tool.type with
  | some ty => if ty ∈ repo_types then
      some (buildRepoInfo space reposData net tool ty) else none
  | none => none

/-- The tool loop, threading an index so each tool sees its own HTTP
interactions. -/
def buildRepoList (space : String) (reposData : List RepoData)
    (net : Nat → NetInputs) : List Tool → Nat → List RepoInfo
  | [], _ => []
  | t :: rest, i =>
    match processTool space reposData (net i) t with
    | some r => r :: buildRepoList space reposData net rest (i + 1)
    | none => buildRepoList space reposData net rest (i + 1)

/-- Lines 37-208 after both listing fetches succeeded: the pure core of
`fetch_assembla_repositories_for_space`.  Per lines 146-148 an empty
repository list is returned as `None` (no exception is raised — the
embedding is total). -/
def fetch_assembla_repositories_for_space (space : String)
    (reposData : List RepoData) (tools : List Tool)
    (net : Nat → NetInputs) : Option (List RepoInfo) :=
  let repositories := buildRepoList space reposData net tools 0
  if repositories.isEmpty then none else some repositories

/-- Lines 509-521: the accumulation loop of `fetch_all_repositories` over
the per-space results (`if repositories: all_repositories.extend(...)`). -/
def fetch_all_repositories (results : List (Option (List RepoInfo))) :
    List RepoInfo :=
  results.foldl
    (fun acc r =>
      match r with
      | some l => if l.isEmpty then acc else acc ++ l
      | none => acc) []

/-- A record with none of the optional keys set, as produced for a
non-Git tool with no matching detail record. -/
def emptyRepo : RepoInfo :=
  { id := some "t1", name := some "git", menu_name := some "demo",
    type := "SubversionTool", created_at := none, updated_at := none,
    space_id := "sp", space_name := "sp",
    size := none, size_mb := none, last_commit_at := none,
    default_branch := none, clone_url_https := none, clone_url_ssh := none,
    is_likely_imported := none, has_commits_indicator := none,
    commits_count := none, branches_count := none, tags_count := none,
    merge_requests_count := none, last_commit_author := none,
    last_commit_message := none }

/-- A concrete branch object for witnesses. -/
def bMain : Branch := { name := some "main", id := none }

/-- A commit payload with every field absent except those set here:
present-but-empty `id`, a message and a timestamp.  Its spec-worded key is
the empty string, its code key is the message/timestamp composite. -/
def cDupA : Commit :=
  { id := some "", sha := none, revision := none,
    message := some "first payload", authored_at := some "2024-01-01",
    committed_at := none, date := none, author := none }

/-- As `cDupA` but with a different message: equal spec-worded key,
different code key. -/
def cDupB : Commit :=
  { id := some "", sha := none, revision := none,
    message := some "second payload", authored_at := some "2024-01-01",
    committed_at := none, date := none, author := none }

/-- A commit payload with a proper identifier, for witnesses. -/
def cId1 : Commit :=
  { id := some "abc123", sha := none, revision := none,
    message := some "initial import", authored_at := some "2024-02-02",
    committed_at := none, date := none, author := none }

/-- A commit payload carrying none of the three timestamp fields. -/
def commitNoTs : Commit :=
  { id := some "c1", sha := none, revision := none,
    message := some "imported snapshot", authored_at := none,
    committed_at := none, date := none, author := none }

/-- A detail record with a 3 MiB size and a last-commit timestamp. -/
def rdSized : RepoData :=
  { id := "r1", size := some 3145728, last_commit_at := some "2024-01-02",
    default_branch := some "master", https_clone_url := none,
    ssh_clone_url := none, branches_url := none, commits_url := none }

/-- A tool entry of an unrecognized kind. -/
def toolWiki : Tool :=
  { id := some "t9", type := some "Wiki", name := some "wiki",
    menu_name := some "Wiki", created_at := none, updated_at := none }

/-- A Git tool entry joined to `rdSized`. -/
def toolGit : Tool :=
  { id := some "r1", type := some "GitTool", name := some "git",
    menu_name := some "demo", created_at := none, updated_at := none }

/-- An interaction set in which every request raises. -/
def inpAllFail : NetInputs :=
  { branchesResp := Resp.exn "b", branchesAltResps := [],
    tagsResp := Resp.exn "t", commitsFor := fun _ => Resp.exn "x",
    commitsFallbackResp := Resp.exn "c", commitsAltResps := [],
    mrResp := Resp.exn "m" }

/-- Three branches are discovered but every per-branch commits request
raises. -/
def inpThreeBranches : NetInputs :=
  { branchesResp := Resp.ok 200 [bMain, bMain, bMain], branchesAltResps := [],
    tagsResp := Resp.exn "t", commitsFor := fun _ => Resp.exn "x",
    commitsFallbackResp := Resp.exn "c", commitsAltResps := [],
    mrResp := Resp.exn "m" }

/-- One branch is discovered and its commits fetch returns a single commit
that carries no timestamp field. -/
def inpOneBranchNoTs : NetInputs :=
  { branchesResp := Resp.ok 200 [bMain], branchesAltResps := [],
    tagsResp := Resp.exn "t", commitsFor := fun _ => Resp.ok 200 [commitNoTs],
    commitsFallbackResp := Resp.exn "c", commitsAltResps := [],
    mrResp := Resp.exn "m" }

end Assembla

namespace Assembla

/-- Claim C1: for every merged repository record, `is_empty` is true iff
its commit count is 0, its branch count is 0, its size is 0, its
last-commit timestamp is absent (Python-falsy), and its commits-indicator
flag is false; violating any single conjunct makes `is_empty` false; and
the reporter (line 156) and the exporter (line 462) compute the same
predicate. -/
theorem is_empty_characterization (repo : RepoInfo) :
    (is_empty_report repo = true ↔
      (repo.commits_count.getD 0 = 0 ∧ repo.branches_count.getD 0 = 0 ∧
       repo.size.getD 0 = 0 ∧ repo.last_commit_at.getD "" = "" ∧
       repo.has_commits_indicator.getD false = false))
    ∧ is_empty_export repo = is_empty_report repo
    ∧ (∀ n : Int, n ≠ 0 →
        is_empty_report { repo with commits_count := some n } = false)
    ∧ (∀ n : Int, n ≠ 0 →
        is_empty_report { repo with branches_count := some n } = false)
    ∧ (∀ n : Nat, n ≠ 0 →
        is_empty_report { repo with size := some n } = false)
    ∧ (∀ s : String, s ≠ "" →
        is_empty_report { repo with last_commit_at := some s } = false)
    ∧ is_empty_report { repo with has_commits_indicator := some true } = false := by
  refine ⟨?_, rfl, ?_, ?_, ?_, ?_, ?_⟩
  · simp [is_empty_report, Bool.and_eq_true, and_assoc]
  · intro n hn
    simp [is_empty_report, hn]
  · intro n hn
    simp [is_empty_report, hn]
  · intro n hn
    simp [is_empty_report, hn]
  · intro s hs
    simp [is_empty_report, hs]
  · simp [is_empty_report]

/-- Witness for C1 at a concrete record: the all-absent record is empty,
and flipping the commit count or the timestamp flips the verdict. -/
theorem is_empty_characterization_check :
    is_empty_report emptyRepo = true
    ∧ is_empty_report { emptyRepo with commits_count := some 1 } = false
    ∧ is_empty_report { emptyRepo with last_commit_at := some "2024-01-01" } = false := by
  have h := is_empty_characterization emptyRepo
  exact ⟨h.1.mpr ⟨rfl, rfl, rfl, rfl, rfl⟩,
    h.2.2.1 1 (by decide),
    h.2.2.2.2.2.1 "2024-01-01" (by decide)⟩

/-- Claim C8: the `Is_Empty` column is rendered as exactly one of the
literal strings "True", "Imported", "False"; "True" iff the record is
flagged empty, "Imported" iff likely-imported and not empty, "False"
otherwise; the empty flag takes precedence over the imported flag. -/
theorem is_empty_cell_rendering (repo : RepoInfo) :
    (isEmptyCell repo = "True" ∨ isEmptyCell repo = "Imported" ∨
     isEmptyCell repo = "False")
    ∧ (isEmptyCell repo = "True" ↔ is_empty_export repo = true)
    ∧ (isEmptyCell repo = "Imported" ↔
        (is_empty_export repo = false ∧ repo.is_likely_imported.getD false = true))
    ∧ (isEmptyCell repo = "False" ↔
        (is_empty_export repo = false ∧ repo.is_likely_imported.getD false = false)) := by
  cases hE : is_empty_export repo <;>
    cases hI : repo.is_likely_imported.getD false <;>
      simp [isEmptyCell, hE, hI]

/-- Claim C2: in a fallback chain the alternates are tried in their fixed
order and iteration stops at the first status-200 response: when every
alternate before the successful one failed (non-200 status or exception),
the chain yields that alternate's body and exactly `pre.length + 1`
requests were issued — the alternates after the first success are never
requested.  `tryAlts` is the chain evaluator embedded at lines 253-263
(branches) and 372-390 (commits). -/
theorem fallback_chain_first_success {α : Type}
    (pre post : List (Resp (List α))) (body : List α)
    (hpre : ∀ r ∈ pre, respBody200 r = none) :
    tryAlts (pre ++ Resp.ok 200 body :: post) = (some body, pre.length + 1) := by
  induction pre with
  | nil => simp [tryAlts, respBody200]
  | cons r rest ih =>
    have hr : respBody200 r = none := hpre r (List.mem_cons_self r rest)
    have hrest := ih (fun x hx => hpre x (List.mem_cons_of_mem r hx))
    simp [tryAlts, hr, hrest]

/-- Witness for C2: the first alternate raises, the second returns 204,
the third returns 200; exactly three requests are made and the third body
wins — a fourth alternate placed after the success is never requested. -/
theorem fallback_chain_first_success_check :
    tryAlts [Resp.exn "connection reset", Resp.ok 204 ([] : List Branch),
             Resp.ok 200 [bMain], Resp.ok 200 ([] : List Branch)]
      = (some [bMain], 3) := by
  have h := fallback_chain_first_success
    [Resp.exn "connection reset", Resp.ok 204 ([] : List Branch)]
    [Resp.ok 200 ([] : List Branch)] [bMain] (by decide)
  simpa using h

theorem addCommit_all (st : AggState) (c : Commit) :
    (addCommit st c).all =
      if st.all.any (fun e => commitKey e == commitKey c) then st.all
      else st.all ++ [c] := by
  unfold addCommit
  split
  · simp
  · split <;> simp

theorem addCommit_keys_nodup (st : AggState) (c : Commit)
    (h : (st.all.map commitKey).Nodup) :
    ((addCommit st c).all.map commitKey).Nodup := by
  rw [addCommit_all]
  by_cases hany : st.all.any (fun e => commitKey e == commitKey c) = true
  · rw [if_pos hany]; exact h
  · rw [if_neg hany]
    have hni : commitKey c ∉ st.all.map commitKey := by
      intro hmem
      rcases List.mem_map.mp hmem with ⟨e, he, hk⟩
      exact hany (List.any_eq_true.mpr ⟨e, he, by simp [hk]⟩)
    simp [List.nodup_append, h, hni]

theorem addCommit_key_mem (st : AggState) (c : Commit) :
    commitKey c ∈ (addCommit st c).all.map commitKey := by
  rw [addCommit_all]
  by_cases hany : st.all.any (fun e => commitKey e == commitKey c) = true
  · rw [if_pos hany]
    rcases List.any_eq_true.mp hany with ⟨e, he, hk⟩
    have hkey : commitKey e = commitKey c := by simpa using hk
    exact hkey ▸ List.mem_map_of_mem commitKey he
  · rw [if_neg hany]; simp

theorem addCommit_key_mem_mono (st : AggState) (c : Commit) (x : String)
    (h : x ∈ st.all.map commitKey) :
    x ∈ (addCommit st c).all.map commitKey := by
  rw [addCommit_all]
  by_cases hany : st.all.any (fun e => commitKey e == commitKey c) = true
  · rw [if_pos hany]; exact h
  · rw [if_neg hany]
    simp only [List.map_append]
    exact List.mem_append_left _ h

theorem foldl_addCommit_keys_nodup (body : List Commit) :
    ∀ st : AggState, (st.all.map commitKey).Nodup →
      (((body.foldl addCommit st).all).map commitKey).Nodup := by
  induction body with
  | nil => intro st h; simpa using h
  | cons c rest ih =>
    intro st h
    simpa using ih (addCommit st c) (addCommit_keys_nodup st c h)

theorem foldl_addCommit_key_mem_mono (body : List Commit) :
    ∀ (st : AggState) (x : String), x ∈ st.all.map commitKey →
      x ∈ ((body.foldl addCommit st).all).map commitKey := by
  induction body with
  | nil => intro st x h; simpa using h
  | cons c rest ih =>
    intro st x h
    simpa using ih (addCommit st c) x (addCommit_key_mem_mono st c x h)

theorem foldl_addCommit_key_mem (body : List Commit) :
    ∀ (st : AggState) (c : Commit), c ∈ body →
      commitKey c ∈ ((body.foldl addCommit st).all).map commitKey := by
  induction body with
  | nil => intro st c h; simp at h
  | cons b rest ih =>
    intro st c h
    rcases List.mem_cons.mp h with rfl | h
    · simpa using
        foldl_addCommit_key_mem_mono rest (addCommit st c) _ (addCommit_key_mem st c)
    · simpa using ih (addCommit st b) c h

theorem processBranchResp_keys_nodup (st : AggState) (r : Resp (List Commit))
    (h : (st.all.map commitKey).Nodup) :
    (((processBranchResp st r).all).map commitKey).Nodup := by
  unfold processBranchResp
  rcases hr : respBody200 r with _ | body
  · exact h
  · exact foldl_addCommit_keys_nodup body st h

theorem processBranchResp_key_mem_mono (st : AggState) (r : Resp (List Commit))
    (x : String) (h : x ∈ st.all.map commitKey) :
    x ∈ ((processBranchResp st r).all).map commitKey := by
  unfold processBranchResp
  rcases hr : respBody200 r with _ | body
  · exact h
  · exact foldl_addCommit_key_mem_mono body st x h

theorem foldl_processBranch_keys_nodup (resps : List (Resp (List Commit))) :
    ∀ st : AggState, (st.all.map commitKey).Nodup →
      (((resps.foldl processBranchResp st).all).map commitKey).Nodup := by
  induction resps with
  | nil => intro st h; simpa using h
  | cons r rest ih =>
    intro st h
    simpa using ih (processBranchResp st r) (processBranchResp_keys_nodup st r h)

theorem foldl_processBranch_key_mem_mono (resps : List (Resp (List Commit))) :
    ∀ (st : AggState) (x : String), x ∈ st.all.map commitKey →
      x ∈ ((resps.foldl processBranchResp st).all).map commitKey := by
  induction resps with
  | nil => intro st x h; simpa using h
  | cons r rest ih =>
    intro st x h
    simpa using ih (processBranchResp st r) x (processBranchResp_key_mem_mono st r x h)

theorem foldl_processBranch_key_mem (resps : List (Resp (List Commit))) :
    ∀ (st : AggState) (body : List Commit) (c : Commit),
      Resp.ok 200 body ∈ resps → c ∈ body →
      commitKey c ∈ ((resps.foldl processBranchResp st).all).map commitKey := by
  induction resps with
  | nil => intro st body c h _; simp at h
  | cons r rest ih =>
    intro st body c hr hc
    rcases List.mem_cons.mp hr with rfl | hr
    · have hpr : processBranchResp st (Resp.ok 200 body) = body.foldl addCommit st := by
        unfold processBranchResp
        simp [respBody200]
      have hm := foldl_addCommit_key_mem body st c hc
      simpa [hpr] using foldl_processBranch_key_mem_mono rest (body.foldl addCommit st) _ hm
    · simpa using ih (processBranchResp st r) body c hr hc

/-- Counterexample to Claim C3 as stated: two commit payloads whose keys
are equal under the spec's key description ("the first present field among
id, sha, and revision") do NOT collapse: both carry a present-but-empty
`id`, so the spec-worded key of each is `""`, yet the code treats an empty
first-present identifier as missing and falls back to the
message+timestamp composite, which differs — the aggregate keeps two
entries. -/
theorem commit_dedup_spec_key_counterexample :
    specCommitKey cDupA = specCommitKey cDupB
    ∧ cDupA ≠ cDupB
    ∧ ((aggregateAll [Resp.ok 200 [cDupA], Resp.ok 200 [cDupB]]).all).length = 2 := by
  refine ⟨rfl, by decide, ?_⟩
  set_option maxRecDepth 4000 in decide

/-- Claim C3 (amended): two commit payloads collapse to a single aggregate
entry exactly when their keys under the code's key function agree — the
key being the value of the first present field among id, sha and revision
or, when no such field is present or the first present one is empty, the
composite of the first 50 characters of the message plus the authored-at
(else committed-at) timestamp.  Whatever branches supplied the payloads
and in whatever order branches are processed, the aggregate never holds
two entries with the same key, and every payload of every successful
branch response is represented by an entry with its key. -/
theorem commit_dedup_code_key (resps : List (Resp (List Commit))) :
    (((aggregateAll resps).all).map commitKey).Nodup
    ∧ ∀ (body : List Commit) (c : Commit),
        Resp.ok 200 body ∈ resps → c ∈ body →
        commitKey c ∈ ((aggregateAll resps).all).map commitKey := by
  constructor
  · exact foldl_processBranch_keys_nodup resps initAgg (by simp [initAgg])
  · intro body c hr hc
    exact foldl_processBranch_key_mem resps initAgg body c hr hc

/-- Witness for C3: the same payload supplied by two different branches
yields an aggregate whose key list is duplicate-free and contains the
payload's key (hence exactly one entry). -/
theorem commit_dedup_code_key_check :
    (((aggregateAll [Resp.ok 200 [cId1], Resp.ok 200 [cId1]]).all).map commitKey).Nodup
    ∧ commitKey cId1 ∈
        ((aggregateAll [Resp.ok 200 [cId1], Resp.ok 200 [cId1]]).all).map commitKey := by
  have h := commit_dedup_code_key [Resp.ok 200 [cId1], Resp.ok 200 [cId1]]
  exact ⟨h.1, h.2 [cId1] cId1 (by decide) (by decide)⟩

theorem addCommit_all_ne_nil (st : AggState) (c : Commit) :
    (addCommit st c).all ≠ [] := by
  rw [addCommit_all]
  by_cases hany : st.all.any (fun e => commitKey e == commitKey c) = true
  · rw [if_pos hany]
    intro hnil
    rw [hnil] at hany
    simp at hany
  · rw [if_neg hany]; simp

theorem foldl_addCommit_eq_of_all_nil (body : List Commit) :
    ∀ st : AggState, (body.foldl addCommit st).all = [] →
      body.foldl addCommit st = st := by
  induction body with
  | nil => intro st _; rfl
  | cons c rest ih =>
    intro st h
    have h' : (rest.foldl addCommit (addCommit st c)).all = [] := by simpa using h
    have heq := ih (addCommit st c) h'
    rw [heq] at h'
    exact absurd h' (addCommit_all_ne_nil st c)

theorem processBranchResp_eq_of_all_nil (st : AggState) (r : Resp (List Commit))
    (h : (processBranchResp st r).all = []) : processBranchResp st r = st := by
  unfold processBranchResp at h ⊢
  rcases hr : respBody200 r with _ | body
  · rfl
  · rw [hr] at h
    exact foldl_addCommit_eq_of_all_nil body st h

theorem foldl_processBranch_eq_of_all_nil (resps : List (Resp (List Commit))) :
    ∀ st : AggState, ((resps.foldl processBranchResp st).all = []) →
      resps.foldl processBranchResp st = st := by
  induction resps with
  | nil => intro st _; rfl
  | cons r rest ih =>
    intro st h
    have h' : ((rest.foldl processBranchResp (processBranchResp st r)).all = []) := by
      simpa using h
    have heq := ih (processBranchResp st r) h'
    rw [heq] at h'
    have hst := processBranchResp_eq_of_all_nil st r h'
    show rest.foldl processBranchResp (processBranchResp st r) = st
    rw [heq, hst]

theorem commitsFallbackVal_nil_latest (r : Resp (List Commit))
    (alts : List (Resp (List Commit)))
    (h : (commitsFallbackVal r alts).1 = []) :
    (commitsFallbackVal r alts).2 = none := by
  cases r with
  | exn e => rfl
  | ok s body =>
    simp only [commitsFallbackVal] at h ⊢
    by_cases h200 : s = 200
    · rw [if_pos h200] at h ⊢
      have hb : body = [] := h
      subst hb
      rfl
    · rw [if_neg h200] at h ⊢
      by_cases h422 : s = 422
      · rw [if_pos h422] at h ⊢
        rcases halt : (tryAlts alts).1 with _ | b
        · rfl
        · rw [halt] at h
          have hb : b = [] := h
          subst hb
          rfl
      · rw [if_neg h422] at h ⊢

theorem commitsStage_nil_latest (inp : NetInputs) (branches : List Branch)
    (h : (commitsStageVal inp branches).1 = []) :
    (commitsStageVal inp branches).2 = none := by
  unfold commitsStageVal at h ⊢
  by_cases hb : branches.isEmpty
  · rw [if_pos hb] at h ⊢
    exact commitsFallbackVal_nil_latest _ _ h
  · rw [if_neg hb] at h ⊢
    have heq := foldl_processBranch_eq_of_all_nil
      ((List.range branches.length).map inp.commitsFor) initAgg h
    show (aggregateAll ((List.range branches.length).map inp.commitsFor)).latest = none
    unfold aggregateAll
    rw [heq]
    rfl

theorem addCommit_latest_of_date_empty (st : AggState) (c : Commit)
    (h : commitDate c = "") : (addCommit st c).latest = st.latest := by
  unfold addCommit
  split
  · rfl
  · simp [h]

theorem foldl_addCommit_latest_of_dates_empty (body : List Commit) :
    ∀ st : AggState, (∀ c ∈ body, commitDate c = "") →
      (body.foldl addCommit st).latest = st.latest := by
  induction body with
  | nil => intro st _; rfl
  | cons c rest ih =>
    intro st h
    rw [List.foldl_cons]
    rw [ih (addCommit st c) (fun x hx => h x (List.mem_cons_of_mem c hx))]
    exact addCommit_latest_of_date_empty st c (h c (List.mem_cons_self c rest))

theorem processBranchResp_latest_of_dates_empty (st : AggState)
    (r : Resp (List Commit))
    (h : ∀ body, respBody200 r = some body → ∀ c ∈ body, commitDate c = "") :
    (processBranchResp st r).latest = st.latest := by
  unfold processBranchResp
  rcases hr : respBody200 r with _ | body
  · rfl
  · exact foldl_addCommit_latest_of_dates_empty body st (h body hr)

theorem foldl_processBranch_latest_of_dates_empty
    (resps : List (Resp (List Commit))) :
    ∀ st : AggState,
      (∀ r ∈ resps, ∀ body, respBody200 r = some body → ∀ c ∈ body, commitDate c = "") →
      (resps.foldl processBranchResp st).latest = st.latest := by
  induction resps with
  | nil => intro st _; rfl
  | cons r rest ih =>
    intro st h
    rw [List.foldl_cons]
    rw [ih (processBranchResp st r) (fun x hx => h x (List.mem_cons_of_mem r hx))]
    exact processBranchResp_latest_of_dates_empty st r (h r (List.mem_cons_self r rest))

theorem fetchTagsVal_nonneg (r : Resp (List Unit)) : 0 ≤ fetchTagsVal r := by
  cases r with
  | ok s body =>
    simp only [fetchTagsVal]
    split
    · exact Int.natCast_nonneg _
    · exact le_refl 0
  | exn e => exact le_refl 0

theorem fetchMRVal_nonneg (r : Resp (List Unit)) : 0 ≤ fetchMRVal r := by
  cases r with
  | ok s body =>
    simp only [fetchMRVal]
    split
    · exact Int.natCast_nonneg _
    · exact le_refl 0
  | exn e => exact le_refl 0

theorem assembleStats_none_some (bc : Nat) (tc mc : Int) (all : List Commit)
    (d : RepoData) :
    assembleStats bc tc mc all none (some d) =
      (if d.last_commit_at.getD "" ≠ "" ∧ all.length = 0 then
        { commits_count := if 0 < bc then max 1 (bc : Int) else 1,
          branches_count := (bc : Int), tags_count := tc,
          merge_requests_count := mc, last_commit_author := "",
          last_commit_message := "",
          last_commit_at := d.last_commit_at.getD "" }
      else
        { commits_count := (all.length : Int), branches_count := (bc : Int),
          tags_count := tc, merge_requests_count := mc,
          last_commit_author := "", last_commit_message := "",
          last_commit_at := "" } : Stats) := rfl

theorem assembleStats_counts (bc : Nat) (tc mc : Int) (all : List Commit)
    (latest : Option Commit) (rd : Option RepoData) :
    0 ≤ (assembleStats bc tc mc all latest rd).commits_count
    ∧ (assembleStats bc tc mc all latest rd).branches_count = (bc : Int)
    ∧ (assembleStats bc tc mc all latest rd).tags_count = tc
    ∧ (assembleStats bc tc mc all latest rd).merge_requests_count = mc := by
  cases latest with
  | some lc => exact ⟨Int.natCast_nonneg _, rfl, rfl, rfl⟩
  | none =>
    cases rd with
    | none => exact ⟨Int.natCast_nonneg _, rfl, rfl, rfl⟩
    | some d =>
      rw [assembleStats_none_some]
      by_cases hcond : d.last_commit_at.getD "" ≠ "" ∧ all.length = 0
      · rw [if_pos hcond]
        refine ⟨?_, rfl, rfl, rfl⟩
        by_cases hbc : 0 < bc
        · rw [if_pos hbc]; exact le_trans zero_le_one (le_max_left 1 _)
        · rw [if_neg hbc]; exact zero_le_one
      · rw [if_neg hcond]
        exact ⟨Int.natCast_nonneg _, rfl, rfl, rfl⟩

theorem roundTo2_zero : roundTo2 0 = 0 := by
  unfold roundTo2 pyRound
  norm_num

theorem assembleStats_none_fields (bc : Nat) (tc mc : Int) (all : List Commit)
    (rd : Option RepoData) (hall : all ≠ []) :
    (assembleStats bc tc mc all none rd).last_commit_at = ""
    ∧ (assembleStats bc tc mc all none rd).commits_count = (all.length : Int) := by
  have hlen : all.length ≠ 0 := fun h0 => hall (List.length_eq_zero.mp h0)
  cases rd with
  | none => exact ⟨rfl, rfl⟩
  | some d =>
    rw [assembleStats_none_some]
    rw [if_neg (by rintro ⟨_, h0⟩; exact hlen h0)]
    exact ⟨rfl, rfl⟩

/-- Claim C4: when the detail record carries a (truthy) last-commit
timestamp and the API yielded zero commits, the enricher synthesizes a
commit-count estimate: `max(1, branches_count)` when branches were found
(so branch count 3 gives 3, since `max 1 n = n` for positive `n`), and 1
when no branch was found, and it carries the detail record's timestamp
into the stats (lines 414-424). -/
theorem synthesized_commit_estimate (inp : NetInputs) (rd : RepoData) (ts : String)
    (hts : rd.last_commit_at = some ts) (hne : ts ≠ "")
    (hzero : (commitsStageVal inp
        (fetchBranchesVal inp.branchesResp inp.branchesAltResps)).1 = []) :
    (getGitRepoStatistics inp (some rd)).last_commit_at = ts
    ∧ (0 < (fetchBranchesVal inp.branchesResp inp.branchesAltResps).length →
        (getGitRepoStatistics inp (some rd)).commits_count
            = max 1 ((fetchBranchesVal inp.branchesResp inp.branchesAltResps).length : Int)
        ∧ max 1 ((fetchBranchesVal inp.branchesResp inp.branchesAltResps).length : Int)
            = ((fetchBranchesVal inp.branchesResp inp.branchesAltResps).length : Int))
    ∧ ((fetchBranchesVal inp.branchesResp inp.branchesAltResps).length = 0 →
        (getGitRepoStatistics inp (some rd)).commits_count = 1) := by
  have hlat := commitsStage_nil_latest inp
    (fetchBranchesVal inp.branchesResp inp.branchesAltResps) hzero
  have hstats : getGitRepoStatistics inp (some rd)
      = assembleStats (fetchBranchesVal inp.branchesResp inp.branchesAltResps).length
          (fetchTagsVal inp.tagsResp) (fetchMRVal inp.mrResp)
          (commitsStageVal inp (fetchBranchesVal inp.branchesResp inp.branchesAltResps)).1
          (commitsStageVal inp (fetchBranchesVal inp.branchesResp inp.branchesAltResps)).2
          (some rd) := rfl
  rw [hzero, hlat] at hstats
  have hcond : rd.last_commit_at.getD "" ≠ "" ∧ ([] : List Commit).length = 0 := by
    refine ⟨?_, rfl⟩
    rw [hts]
    simpa using hne
  rw [assembleStats_none_some, if_pos hcond] at hstats
  refine ⟨?_, ?_, ?_⟩
  · rw [hstats]
    show rd.last_commit_at.getD "" = ts
    rw [hts]
    rfl
  · intro hpos
    constructor
    · rw [hstats]
      show (if 0 < (fetchBranchesVal inp.branchesResp inp.branchesAltResps).length then
          max 1 ((fetchBranchesVal inp.branchesResp inp.branchesAltResps).length : Int) else 1)
        = max 1 ((fetchBranchesVal inp.branchesResp inp.branchesAltResps).length : Int)
      rw [if_pos hpos]
    · exact max_eq_right (by exact_mod_cast hpos)
  · intro hz
    rw [hstats]
    show (if 0 < (fetchBranchesVal inp.branchesResp inp.branchesAltResps).length then
        max 1 ((fetchBranchesVal inp.branchesResp inp.branchesAltResps).length : Int) else 1) = 1
    rw [if_neg (by simp [hz])]

/-- Witness for C4: three discovered branches with failing commit fetches
give estimate 3 and the detail timestamp; no branches at all give
estimate 1. -/
theorem synthesized_commit_estimate_check :
    (getGitRepoStatistics inpThreeBranches (some rdSized)).commits_count = 3
    ∧ (getGitRepoStatistics inpThreeBranches (some rdSized)).last_commit_at = "2024-01-02"
    ∧ (getGitRepoStatistics inpAllFail (some rdSized)).commits_count = 1 := by
  have h3 := synthesized_commit_estimate inpThreeBranches rdSized "2024-01-02" rfl
    (by decide) (by decide)
  have h0 := synthesized_commit_estimate inpAllFail rdSized "2024-01-02" rfl
    (by decide) (by decide)
  refine ⟨?_, h3.1, h0.2.2 (by decide)⟩
  have hp := h3.2.1 (by decide)
  rw [hp.1, hp.2]
  decide

/-- Claim C9: over every combination of responses and caught exceptions,
`get_git_repo_statistics` returns the complete seven-field stats record
(the embedding is a total function into `Stats`, whose seven fields are
exactly the seven initialised keys of lines 215-223): the four counts are
non-negative, and when every sub-fetch raises and no detail record is
attached, every field keeps its initial default (0 / empty string). -/
theorem stats_record_shape (inp : NetInputs) (rd : Option RepoData) :
    (0 ≤ (getGitRepoStatistics inp rd).commits_count
     ∧ 0 ≤ (getGitRepoStatistics inp rd).branches_count
     ∧ 0 ≤ (getGitRepoStatistics inp rd).tags_count
     ∧ 0 ≤ (getGitRepoStatistics inp rd).merge_requests_count)
    ∧ (∀ e1 e2 e3 e4 : String,
        inp.branchesResp = Resp.exn e1 → inp.tagsResp = Resp.exn e2 →
        inp.commitsFallbackResp = Resp.exn e3 → inp.mrResp = Resp.exn e4 →
        rd = none →
        getGitRepoStatistics inp rd =
          { commits_count := 0, branches_count := 0, tags_count := 0,
            merge_requests_count := 0, last_commit_author := "",
            last_commit_message := "", last_commit_at := "" }) := by
  constructor
  · have hstats : getGitRepoStatistics inp rd
        = assembleStats (fetchBranchesVal inp.branchesResp inp.branchesAltResps).length
            (fetchTagsVal inp.tagsResp) (fetchMRVal inp.mrResp)
            (commitsStageVal inp (fetchBranchesVal inp.branchesResp inp.branchesAltResps)).1
            (commitsStageVal inp (fetchBranchesVal inp.branchesResp inp.branchesAltResps)).2
            rd := rfl
    rw [hstats]
    obtain ⟨h1, h2, h3, h4⟩ := assembleStats_counts
      (fetchBranchesVal inp.branchesResp inp.branchesAltResps).length
      (fetchTagsVal inp.tagsResp) (fetchMRVal inp.mrResp)
      (commitsStageVal inp (fetchBranchesVal inp.branchesResp inp.branchesAltResps)).1
      (commitsStageVal inp (fetchBranchesVal inp.branchesResp inp.branchesAltResps)).2
      rd
    refine ⟨h1, ?_, ?_, ?_⟩
    · rw [h2]; exact Int.natCast_nonneg _
    · rw [h3]; exact fetchTagsVal_nonneg _
    · rw [h4]; exact fetchMRVal_nonneg _
  · intro e1 e2 e3 e4 hb ht hc hm hrd
    subst hrd
    have hbr : fetchBranchesVal inp.branchesResp inp.branchesAltResps = [] := by
      rw [hb]
      rfl
    have hcs : commitsStageVal inp [] = ([], none) := by
      show commitsFallbackVal inp.commitsFallbackResp inp.commitsAltResps = ([], none)
      rw [hc]
      rfl
    simp only [getGitRepoStatistics]
    rw [hbr, hcs, ht, hm]
    rfl

/-- Witness for C9: the all-raising interaction set with no detail record
yields exactly the default record. -/
theorem stats_record_shape_check :
    getGitRepoStatistics inpAllFail none =
      { commits_count := 0, branches_count := 0, tags_count := 0,
        merge_requests_count := 0, last_commit_author := "",
        last_commit_message := "", last_commit_at := "" } :=
  (stats_record_shape inpAllFail none).2 "b" "t" "c" "m" rfl rfl rfl rfl rfl

/-- Claim C10: merging the enricher's stats into the record overwrites the
detail-derived last-commit timestamp: when branches were discovered and
the per-branch fetches found commits but none of them carries any of the
timestamp fields authored_at / committed_at / date, the merged record's
last-commit timestamp becomes `some ""` — even when the record originally
carried a real timestamp — because the latest-commit tracker never fires
and the synthesized-estimate path is skipped (the commit count is
non-zero). -/
theorem stats_merge_overwrites_last_commit_at (inp : NetInputs)
    (rd : Option RepoData) (r : RepoInfo) (ts : String)
    (hr : r.last_commit_at = some ts) (hts : ts ≠ "")
    (hbr : fetchBranchesVal inp.branchesResp inp.branchesAltResps ≠ [])
    (hnots : ∀ (i : Nat) (body : List Commit),
        respBody200 (inp.commitsFor i) = some body → ∀ c ∈ body, commitDate c = "")
    (hfound : (commitsStageVal inp
        (fetchBranchesVal inp.branchesResp inp.branchesAltResps)).1 ≠ []) :
    (applyStats r (getGitRepoStatistics inp rd)).last_commit_at = some ""
    ∧ 0 < (getGitRepoStatistics inp rd).commits_count
    ∧ (applyStats r (getGitRepoStatistics inp rd)).last_commit_at ≠ r.last_commit_at := by
  have hnemp : ¬ ((fetchBranchesVal inp.branchesResp inp.branchesAltResps).isEmpty = true) := by
    intro hemp
    exact hbr (List.isEmpty_iff.mp hemp)
  have hresp : ∀ x ∈ (List.range
        (fetchBranchesVal inp.branchesResp inp.branchesAltResps).length).map inp.commitsFor,
      ∀ body, respBody200 x = some body → ∀ c ∈ body, commitDate c = "" := by
    intro x hx body hb c hc
    rcases List.mem_map.mp hx with ⟨i, _, rfl⟩
    exact hnots i body hb c hc
  have hlat : (commitsStageVal inp
      (fetchBranchesVal inp.branchesResp inp.branchesAltResps)).2 = none := by
    unfold commitsStageVal
    rw [if_neg hnemp]
    show (aggregateAll ((List.range
      (fetchBranchesVal inp.branchesResp inp.branchesAltResps).length).map inp.commitsFor)).latest = none
    unfold aggregateAll
    rw [foldl_processBranch_latest_of_dates_empty _ initAgg hresp]
    rfl
  have hstats : getGitRepoStatistics inp rd
      = assembleStats (fetchBranchesVal inp.branchesResp inp.branchesAltResps).length
          (fetchTagsVal inp.tagsResp) (fetchMRVal inp.mrResp)
          (commitsStageVal inp (fetchBranchesVal inp.branchesResp inp.branchesAltResps)).1
          (commitsStageVal inp (fetchBranchesVal inp.branchesResp inp.branchesAltResps)).2
          rd := rfl
  rw [hlat] at hstats
  have hfin := assembleStats_none_fields
    (fetchBranchesVal inp.branchesResp inp.branchesAltResps).length
    (fetchTagsVal inp.tagsResp) (fetchMRVal inp.mrResp)
    (commitsStageVal inp (fetchBranchesVal inp.branchesResp inp.branchesAltResps)).1
    rd hfound
  have h1 : (applyStats r (getGitRepoStatistics inp rd)).last_commit_at = some "" := by
    show some ((getGitRepoStatistics inp rd).last_commit_at) = some ""
    rw [hstats, hfin.1]
  refine ⟨h1, ?_, ?_⟩
  · rw [hstats, hfin.2]
    have hpos : 0 < (commitsStageVal inp
        (fetchBranchesVal inp.branchesResp inp.branchesAltResps)).1.length :=
      Nat.pos_of_ne_zero (fun h0 => hfound (List.length_eq_zero.mp h0))
    exact_mod_cast hpos
  · rw [h1, hr]
    intro hcontra
    exact hts (Option.some.inj hcontra).symm

/-- Witness for C10: a record carrying the detail timestamp 2023-05-05 is
merged with stats computed from one branch whose single commit has no
timestamp field; the merged timestamp becomes the empty string. -/
theorem stats_merge_overwrites_last_commit_at_check :
    (applyStats { emptyRepo with last_commit_at := some "2023-05-05" }
        (getGitRepoStatistics inpOneBranchNoTs (some rdSized))).last_commit_at = some "" := by
  have hnots : ∀ (i : Nat) (body : List Commit),
      respBody200 (inpOneBranchNoTs.commitsFor i) = some body →
      ∀ c ∈ body, commitDate c = "" := by
    intro i body hb c hc
    have hb1 : respBody200 (Resp.ok 200 [commitNoTs]) = some body := hb
    have hb2 : body = [commitNoTs] := by
      have h2 : some [commitNoTs] = some body := by
        simpa [respBody200] using hb1
      exact (Option.some.inj h2).symm
    subst hb2
    have hc2 : c = commitNoTs := by simpa using hc
    subst hc2
    rfl
  have h := stats_merge_overwrites_last_commit_at inpOneBranchNoTs (some rdSized)
    { emptyRepo with last_commit_at := some "2023-05-05" } "2023-05-05" rfl
    (by decide) (by decide) hnots (by decide)
  exact h.1

theorem buildRepoList_nil_of_unrecognized (space : String)
    (reposData : List RepoData) (net : Nat → NetInputs) :
    ∀ (tools : List Tool) (i : Nat),
      (∀ t ∈ tools, ∀ ty ∈ repo_types, t.type ≠ some ty) →
      buildRepoList space reposData net tools i = [] := by
  intro tools
  induction tools with
  | nil => intro i _; rfl
  | cons t rest ih =>
    intro i h
    have hpt : processTool space reposData (net i) t = none := by
      unfold processTool
      cases htt : t.type with
      | none => rfl
      | some ty =>
        have hnotin : ty ∉ repo_types :=
          fun hin => h t (List.mem_cons_self t rest) ty hin htt
        show (if ty ∈ repo_types then
            some (buildRepoInfo space reposData (net i) t ty) else none) = none
        rw [if_neg hnotin]
    simp only [buildRepoList, hpt]
    exact ih (i + 1) (fun x hx ty hty => h x (List.mem_cons_of_mem t hx) ty hty)

/-- Claim C5: when both listings were fetched but no tool entry is of a
recognized VCS kind, the lister returns the empty-result marker `None`
(lines 146-148) without raising (the embedding is total), and the
accumulation loop of `fetch_all_repositories` lets that space contribute
zero records while every other space's result is kept unchanged. -/
theorem no_recognized_tools_empty_result (space : String)
    (reposData : List RepoData) (tools : List Tool) (net : Nat → NetInputs)
    (h : ∀ t ∈ tools, ∀ ty ∈ repo_types, t.type ≠ some ty) :
    fetch_assembla_repositories_for_space space reposData tools net = none
    ∧ ∀ (pre post : List (Option (List RepoInfo))),
        fetch_all_repositories
            (pre ++ fetch_assembla_repositories_for_space space reposData tools net :: post)
          = fetch_all_repositories (pre ++ post) := by
  have hnil := buildRepoList_nil_of_unrecognized space reposData net tools 0 h
  have hres : fetch_assembla_repositories_for_space space reposData tools net = none := by
    unfold fetch_assembla_repositories_for_space
    rw [hnil]
    rfl
  refine ⟨hres, ?_⟩
  intro pre post
  rw [hres]
  unfold fetch_all_repositories
  rw [List.foldl_append, List.foldl_append]
  rfl

/-- Witness for C5: a space holding only a Wiki tool yields `none`, and
sandwiched between two other space results it contributes nothing. -/
theorem no_recognized_tools_empty_result_check :
    fetch_assembla_repositories_for_space "sp" [] [toolWiki] (fun _ => inpAllFail) = none
    ∧ fetch_all_repositories
        [some [emptyRepo],
         fetch_assembla_repositories_for_space "sp" [] [toolWiki] (fun _ => inpAllFail)]
      = fetch_all_repositories [some [emptyRepo]] := by
  have h := no_recognized_tools_empty_result "sp" [] [toolWiki] (fun _ => inpAllFail)
    (by decide)
  exact ⟨h.1, h.2 [some [emptyRepo]] []⟩

/-- Claim C7: for every record with an attached detail record, the
size-in-MB field equals `round(size_bytes / 1048576, 2)` (2-decimal
half-even rounding, exact over ℚ), and a zero or absent byte size yields
exactly 0 (line 112-113). -/
theorem size_mb_formula (space : String) (reposData : List RepoData)
    (net : NetInputs) (tool : Tool) (ty : String) (rd : RepoData)
    (hfind : findDetail reposData tool = some rd) :
    (buildRepoInfo space reposData net tool ty).size_mb
        = some (roundTo2 ((rd.size.getD 0 : ℚ) / 1048576))
    ∧ ((rd.size = none ∨ rd.size = some 0) →
        (buildRepoInfo space reposData net tool ty).size_mb = some 0) := by
  have hmb : (buildRepoInfo space reposData net tool ty).size_mb
      = some (if rd.size.getD 0 > 0 then
          roundTo2 ((rd.size.getD 0 : ℚ) / (1024 * 1024)) else 0) := by
    unfold buildRepoInfo
    rw [hfind]
    by_cases hty : (ty == "GitTool") = true
    · rw [if_pos hty]
      rfl
    · rw [if_neg hty]
  have key : ∀ n : Nat, (if n > 0 then roundTo2 ((n : ℚ) / (1024 * 1024)) else (0 : ℚ))
      = roundTo2 ((n : ℚ) / 1048576) := by
    intro n
    by_cases hn : n > 0
    · rw [if_pos hn]
      norm_num
    · rw [if_neg hn]
      have hn0 : n = 0 := Nat.eq_zero_of_not_pos hn
      subst hn0
      rw [show ((0 : Nat) : ℚ) / 1048576 = 0 by norm_num, roundTo2_zero]
  constructor
  · rw [hmb, key]
  · intro hz
    have h0 : rd.size.getD 0 = 0 := by
      rcases hz with hz | hz <;> rw [hz] <;> rfl
    rw [hmb, h0]
    norm_num

/-- Witness for C7: a 3 MiB detail record renders as
`round(3145728 / 1048576, 2)` (= 3). -/
theorem size_mb_formula_check :
    (buildRepoInfo "sp" [rdSized] inpAllFail toolGit "GitTool").size_mb
      = some (roundTo2 ((3145728 : ℚ) / 1048576)) := by
  have h := size_mb_formula "sp" [rdSized] inpAllFail toolGit "GitTool" rdSized (by decide)
  simpa [rdSized] using h.1

/-- Counterexample to Claim C6 as stated: an unexpected status (500) on
the tags sub-fetch defaults the tag count to 0, dropping the body, and
emits no message at all — lines 277-287 print only on the exception path,
so this error is silently swallowed. -/
theorem tags_silent_default_counterexample :
    (500 ≠ 200 ∧ 500 ≠ 204)
    ∧ fetchTagsVal (Resp.ok 500 [()]) = 0
    ∧ fetchTagsMsgs (Resp.ok 500 [()]) = [] :=
  ⟨by decide, rfl, rfl⟩

/-- Claim C6 (amended): every caught exception in a sub-fetch emits a
user-visible message, and every error or unexpected status in the
branches sub-fetch, the per-branch commits fetches and the branchless
fallback commits fetch emits a message; however, the tags sub-fetch on a
status other than 200/204 and the merge-requests sub-fetch on any non-200
status default the count to 0 with no message.  (No exception escapes the
enricher: the embedding is a total function.) -/
theorem sub_fetch_error_messages :
    (∀ e : String, fetchTagsMsgs (Resp.exn e) ≠ [] ∧ fetchMRMsgs (Resp.exn e) ≠ [])
    ∧ (∀ (p : Resp (List Branch)) (alts : List (Resp (List Branch))),
        respBody200 p = none → fetchBranchesMsgs p alts ≠ [])
    ∧ (∀ r : Resp (List Commit), branchCommitMsgs r ≠ [])
    ∧ (∀ (r : Resp (List Commit)) (alts : List (Resp (List Commit))),
        respBody200 r = none → commitsFallbackMsgs r alts ≠ [])
    ∧ (∀ (s : Nat) (body : List Unit), s ≠ 200 → s ≠ 204 →
        fetchTagsVal (Resp.ok s body) = 0 ∧ fetchTagsMsgs (Resp.ok s body) = [])
    ∧ (∀ (s : Nat) (body : List Unit), s ≠ 200 →
        fetchMRVal (Resp.ok s body) = 0 ∧ fetchMRMsgs (Resp.ok s body) = []) := by
  refine ⟨?_, ?_, ?_, ?_, ?_, ?_⟩
  · intro e
    exact ⟨by simp [fetchTagsMsgs], by simp [fetchMRMsgs]⟩
  · intro p alts hp
    cases p with
    | exn e => simp [fetchBranchesMsgs]
    | ok s body =>
      have hs : s ≠ 200 := by
        intro h200
        subst h200
        simp [respBody200] at hp
      simp only [fetchBranchesMsgs]
      rw [if_neg hs]
      by_cases h204 : s = 204
      · rw [if_pos h204]; simp
      · rw [if_neg h204]; simp
  · intro r
    cases r with
    | exn e => simp [branchCommitMsgs]
    | ok s body =>
      simp only [branchCommitMsgs]
      split <;> simp
  · intro r alts hr
    cases r with
    | exn e => simp [commitsFallbackMsgs]
    | ok s body =>
      have hs : s ≠ 200 := by
        intro h200
        subst h200
        simp [respBody200] at hr
      simp only [commitsFallbackMsgs]
      rw [if_neg hs]
      by_cases h422 : s = 422
      · rw [if_pos h422]; simp
      · rw [if_neg h422]
        by_cases h204 : s = 204
        · rw [if_pos h204]; simp
        · rw [if_neg h204]; simp
  · intro s body h200 h204
    constructor
    · simp only [fetchTagsVal]
      rw [if_neg h200]
    · simp only [fetchTagsMsgs]
  · intro s body h200
    constructor
    · simp only [fetchMRVal]
      rw [if_neg h200]
    · simp only [fetchMRMsgs]

/-- Witness for C6 (amended): a tags exception produces a message; a 404
merge-requests response defaults to 0 silently. -/
theorem sub_fetch_error_messages_check :
    fetchTagsMsgs (Resp.exn "boom") ≠ []
    ∧ fetchMRVal (Resp.ok 404 [()]) = 0
    ∧ fetchMRMsgs (Resp.ok 404 [()]) = [] := by
  have h := sub_fetch_error_messages
  exact ⟨(h.1 "boom").1, (h.2.2.2.2.2 404 [()] (by decide)).1,
    (h.2.2.2.2.2 404 [()] (by decide)).2⟩

end Assembla
